import Mathlib

/-!
Shallow embedding of `syncer/utils.go` from the lightningstream repository.

Bytes are modelled as `Nat` (the storage engine only ever supplies values
below 256; none of the definitions depend on that bound unless stated).
Keys and values are `List Nat`, Go errors become an inductive error type
returned through `Except`, and the LMDB collaborator calls (open, stat,
flags, cursor read) are modelled by passing their results in as arguments.
-/

/-- HeaderSize is the size of the timestamp header for each LMDB value in
bytes (Go: `const HeaderSize = 8`). -/
def HeaderSize : Nat := 8

/-- The `lmdb.DupSort` flag bit (`MDB_DUPSORT = 0x04` in the LMDB C API,
re-exported unchanged by lmdb-go). -/
def lmdbDupSort : Nat := 4

/-- A key/value pair as yielded by the storage engine cursor
(`lmdbenv.ReadDBI` item). -/
structure Item where
  key : List Nat
  val : List Nat
deriving DecidableEq

/-- `snapshot.KV`: one entry of a table snapshot. -/
structure KV where
  key : List Nat
  value : List Nat
  timestampNano : Nat
deriving DecidableEq

/-- `snapshot.DBI`: one table snapshot. -/
structure DBI where
  name : String
  flags : Nat
  entries : List KV
deriving DecidableEq

/-- The error outcomes of `readDBI` that originate in this file
(collaborator errors from OpenDBI/Stat/Flags/ReadDBI are outside the
model: we model the function from the point where those calls succeeded).
`noTimestamp` is Go's `ErrNoTimestamp{DBIName, Key}`; the other two are
the `fmt.Errorf` errors, which mention the DBI name in their message. -/
inductive ReadErr where
  | noTimestamp (dbiName : String) (key : List Nat)
  | dupsortDisabled (dbiName : String)
  | duplicateKey (dbiName : String)
deriving DecidableEq

/-- Big-endian unsigned decoding of a byte list, as
`binary.BigEndian.Uint64` does for an 8-byte slice. -/
def beUint64 (b : List Nat) : Nat :=
  b.foldl (fun acc x => acc * 256 + x) 0

/-- Big-endian encoding of a 64-bit number into 8 bytes, matching
`binary.BigEndian.PutUint64`. Used to state round-trip properties. -/
def encodeBE64 (t : Nat) : List Nat :=
  [t / 2 ^ 56 % 256, t / 2 ^ 48 % 256, t / 2 ^ 40 % 256, t / 2 ^ 32 % 256,
   t / 2 ^ 24 % 256, t / 2 ^ 16 % 256, t / 2 ^ 8 % 256, t % 256]

/-- The per-item value/timestamp handling of the `readDBI` loop body,
after the length check has passed: in raw mode the value is kept as is
and the timestamp stays 0; otherwise the first `HeaderSize` bytes are
decoded big-endian as the timestamp and stripped from the value. -/
def extractKV (rawValues : Bool) (item : Item) : KV :=
  if rawValues then ⟨item.key, item.val, 0⟩
  else ⟨item.key, item.val.drop HeaderSize, beUint64 (item.val.take HeaderSize)⟩

/-- The `for _, item := range items` loop of `readDBI`: `prev` is the
previously seen key (`nil` before the first iteration). For each item,
first the adjacent-duplicate check (skipped in dupsort mode), then the
timestamp header check in non-raw mode, then the entry is appended. -/
def readLoop (dbiName : String) (isDupSort rawValues : Bool) :
    Option (List Nat) → List Item → Except ReadErr (List KV)
  | _, [] => .ok []
  | prev, item :: rest =>
    if isDupSort = false ∧ prev = some item.key then
      .error (.duplicateKey dbiName)
    else if rawValues = false ∧ item.val.length < HeaderSize then
      .error (.noTimestamp dbiName item.key)
    else
      (readLoop dbiName isDupSort rawValues (some item.key) rest).map
        (fun es => extractKV rawValues item :: es)

/-- `readDBI` from the point where the collaborator calls succeeded:
`items` is what `lmdbenv.ReadDBI` returned (engine iteration order),
`dbiFlags` what `txn.Flags` returned, `dupSortHack` is `s.lc.DupSortHack`.
The dupsort gate runs before the loop; the returned snapshot carries the
name, the flags (cast to uint64) and the accumulated entries. -/
def readDBI (dbiName : String) (items : List Item) (dbiFlags : Nat)
    (dupSortHack rawValues : Bool) : Except ReadErr DBI :=
  let isDupSort : Bool := dbiFlags &&& lmdbDupSort != 0
  if isDupSort ∧ dupSortHack = false then
    .error (.dupsortDisabled dbiName)
  else
    (readLoop dbiName isDupSort rawValues none items).map
      (fun es => ⟨dbiName, dbiFlags % 2 ^ 64, es⟩)

/-- The character class of `reUnsafe = regexp.MustCompile("[^a-zA-Z0-9-]")`:
`true` exactly for the characters the regex does NOT match. -/
def isSafeChar (c : Char) : Bool :=
  ('a' ≤ c && c ≤ 'z') || ('A' ≤ c && c ≤ 'Z') || ('0' ≤ c && c ≤ '9') || (c == '-')

/-- `reUnsafe.ReplaceAllString(n, "-")`: every character outside
`[a-zA-Z0-9-]` is replaced by a single dash (the regex matches one
character at a time, so replacement is an independent per-character
substitution). -/
def sanitizeName (s : String) : String :=
  String.mk (s.data.map (fun c => if isSafeChar c then c else '-'))

/-- `instanceID`: `s.c.Instance` is `configured`, the package-level
`hostname` global is `host`. If the configured name is empty the hostname
is used; the chosen string is then sanitized. -/
def instanceID (configured host : String) : String :=
  sanitizeName (if configured = "" then host else configured)

/-- What `openEnv` receives from its collaborators:
the result of `lmdbenv.NewWithOptions` (a handle, modelled as a bare
identifier, or an error) and the result of `env.Info()`. Errors are
modelled as their message strings. -/
structure EnvOracle where
  openResult : Except String Nat
  infoResult : Except String (Nat × Int)

/-- The observable outcome of one `openEnv` call: the value/error it
returns, which handle (if any) the engine actually opened during the
call, and how many times `openEnv` itself closed that handle before
returning. -/
structure OpenEnvOutcome where
  result : Except String Nat
  opened : Option Nat
  closeCalls : Nat

/-- `openEnv` from the source: `lmdbenv.NewWithOptions` failure returns
the error; on success `env.Info()` is queried, and an `Info` failure
returns that error directly — the source contains no `Close`/`closeEnv`
call on any path, so `closeCalls` is 0 throughout; on success the handle
is returned. -/
def openEnv (o : EnvOracle) : OpenEnvOutcome :=
  match o.openResult with
  | .error e => ⟨.error e, none, 0⟩
  | .ok env =>
    match o.infoResult with
    | .error e => ⟨.error e, some env, 0⟩
    | .ok _ => ⟨.ok env, some env, 0⟩

/-- `closeEnv`: calls `env.Close()` and, if that returned an error, logs
a warning. The function has no return value in the source, so the error
is never propagated; the model returns the list of warnings logged. -/
def closeEnv (closeResult : Except String Unit) : List String :=
  match closeResult with
  | .error _ => ["Env close returned error"]
  | .ok _ => []

/-- `startStatsLogger` up to the decision point: with the configured
interval (Go `time.Duration`, a signed 64-bit count of nanoseconds,
modelled as `Int`) non-positive it logs that stats logging is disabled
and returns without starting the goroutine (`none`); otherwise it logs
that stats logging is enabled and starts the ticker loop with that
interval (`some interval`). The pair is (log lines, started loop). -/
def startStatsLogger (interval : Int) : List String × Option Int :=
  if interval ≤ 0 then (["LMDB stats logging disabled"], none)
  else (["Enabled LMDB stats logging"], some interval)

/-- Sampling behaviour of the (possibly started) background loop, indexed
by how many ticker ticks fire before cancellation: the goroutine started
by `startStatsLogger` calls `stats.Log` exactly once per tick; if no
goroutine was started there are no sampling calls, ever. -/
def statsSampleCalls (loop : Option Int) (ticks : Nat) : Nat :=
  match loop with
  | none => 0
  | some _ => ticks

/-- Adjacent-key distinctness relative to a previously seen key: exactly
the configurations in which the loop duplicate check never fires. -/
def adjDistinctB : Option (List Nat) → List Item → Bool
  | _, [] => true
  | prev, it :: rest => (prev != some it.key) && adjDistinctB (some it.key) rest

/-!  Helper lemmas about the embedding.  -/

theorem extractKV_key (r : Bool) (it : Item) : (extractKV r it).key = it.key := by
  cases r <;> simp [extractKV]

theorem beUint64_foldl_eq_zero (l : List Nat) :
    ∀ acc : Nat, l.foldl (fun acc x => acc * 256 + x) acc = 0
      ↔ acc = 0 ∧ ∀ b ∈ l, b = 0 := by
  induction l with
  | nil => simp
  | cons x xs ih =>
    intro acc
    rw [List.foldl_cons, ih (acc * 256 + x)]
    constructor
    · rintro ⟨h, hall⟩
      refine ⟨by omega, fun b hb => ?_⟩
      rcases List.mem_cons.mp hb with rfl | hb
      · omega
      · exact hall b hb
    · rintro ⟨rfl, hall⟩
      have hx : x = 0 := hall x (List.mem_cons_self x xs)
      exact ⟨by omega, fun b hb => hall b (List.mem_cons_of_mem x hb)⟩

theorem beUint64_eq_zero (l : List Nat) :
    beUint64 l = 0 ↔ ∀ b ∈ l, b = 0 := by
  rw [beUint64, beUint64_foldl_eq_zero]
  simp

theorem beUint64_encodeBE64 (t : Nat) (ht : t < 2 ^ 64) :
    beUint64 (encodeBE64 t) = t := by
  simp only [beUint64, encodeBE64, List.foldl_cons, List.foldl_nil]
  omega

theorem encodeBE64_length (t : Nat) : (encodeBE64 t).length = 8 := rfl

theorem readLoop_ok_shape (n : String) (d r : Bool) (items : List Item) :
    ∀ (prev : Option (List Nat)) (es : List KV),
    readLoop n d r prev items = .ok es →
    es = items.map (extractKV r)
      ∧ (r = false → ∀ it ∈ items, HeaderSize ≤ it.val.length) := by
  induction items with
  | nil =>
    intro prev es h
    simp only [readLoop, Except.ok.injEq] at h
    simp [← h]
  | cons item rest ih =>
    intro prev es h
    simp only [readLoop] at h
    split at h
    · exact absurd h (by simp)
    · split at h
      · exact absurd h (by simp)
      · rename_i hdup hts
        cases hrec : readLoop n d r (some item.key) rest with
        | error e => rw [hrec] at h; exact absurd h (by simp [Except.map])
        | ok es2 =>
          rw [hrec] at h
          simp only [Except.map, Except.ok.injEq] at h
          obtain ⟨hes2, hlen⟩ := ih (some item.key) es2 hrec
          subst hes2
          refine ⟨by simp [← h], fun hr it2 hit2 => ?_⟩
          rcases List.mem_cons.mp hit2 with rfl | hit2
          · subst hr
            have hnl : ¬ it2.val.length < HeaderSize := fun hl => hts ⟨rfl, hl⟩
            omega
          · exact hlen hr it2 hit2

theorem readLoop_clean_ok (n : String) (d r : Bool) (items : List Item) :
    ∀ prev : Option (List Nat),
    (d = true ∨ adjDistinctB prev items = true) →
    (r = true ∨ ∀ it ∈ items, HeaderSize ≤ it.val.length) →
    readLoop n d r prev items = .ok (items.map (extractKV r)) := by
  induction items with
  | nil => intro prev _ _; simp [readLoop]
  | cons item rest ih =>
    intro prev hadj hwf
    have hdup : ¬(d = false ∧ prev = some item.key) := by
      rintro ⟨hd, hp⟩
      rcases hadj with hadj | hadj
      · rw [hadj] at hd; exact Bool.noConfusion hd
      · simp only [adjDistinctB, Bool.and_eq_true, bne_iff_ne] at hadj
        exact hadj.1 hp
    have hts : ¬(r = false ∧ item.val.length < HeaderSize) := by
      rintro ⟨hr, hlen⟩
      rcases hwf with hwf | hwf
      · rw [hwf] at hr; exact Bool.noConfusion hr
      · exact absurd (hwf item (List.mem_cons_self item rest)) (by omega)
    have hrec : readLoop n d r (some item.key) rest = .ok (rest.map (extractKV r)) := by
      refine ih (some item.key) ?_ ?_
      · rcases hadj with hadj | hadj
        · exact Or.inl hadj
        · simp only [adjDistinctB, Bool.and_eq_true] at hadj
          exact Or.inr hadj.2
      · rcases hwf with hwf | hwf
        · exact Or.inl hwf
        · exact Or.inr fun it hit => hwf it (List.mem_cons_of_mem item hit)
    simp only [readLoop, if_neg hdup, if_neg hts, hrec, Except.map, List.map_cons]

theorem readLoop_duplicate_iff (n : String) (r : Bool) (items : List Item) :
    ∀ prev : Option (List Nat),
    (r = true ∨ ∀ it ∈ items, HeaderSize ≤ it.val.length) →
    (readLoop n false r prev items = .error (.duplicateKey n)
      ↔ adjDistinctB prev items = false) := by
  induction items with
  | nil => intro prev _; simp [readLoop, adjDistinctB]
  | cons item rest ih =>
    intro prev hwf
    by_cases hp : prev = some item.key
    · constructor
      · intro _
        simp [adjDistinctB, hp]
      · intro _
        simp [readLoop, hp]
    · have hts : ¬(r = false ∧ item.val.length < HeaderSize) := by
        rintro ⟨hr, hlen⟩
        rcases hwf with hwf | hwf
        · rw [hwf] at hr; exact Bool.noConfusion hr
        · exact absurd (hwf item (List.mem_cons_self item rest)) (by omega)
      have hwf2 : r = true ∨ ∀ it ∈ rest, HeaderSize ≤ it.val.length := by
        rcases hwf with hwf | hwf
        · exact Or.inl hwf
        · exact Or.inr fun it hit => hwf it (List.mem_cons_of_mem item hit)
      have hrec := ih (some item.key) hwf2
      simp only [readLoop, if_neg (fun h : false = false ∧ prev = some item.key => hp h.2),
        if_neg hts, adjDistinctB, Bool.and_eq_false_iff, bne_eq_false_iff_eq, ← hrec]
      cases hloop : readLoop n false r (some item.key) rest with
      | error e => simp [Except.map, hp]
      | ok es => simp [Except.map, hp]

theorem readLoop_short_error (n : String) (d : Bool) (bad : Item)
    (hbad : bad.val.length < HeaderSize) (pre : List Item) :
    ∀ (prev : Option (List Nat)) (rest : List Item),
    (d = true ∨ adjDistinctB prev (pre ++ [bad]) = true) →
    (∀ it ∈ pre, HeaderSize ≤ it.val.length) →
    readLoop n d false prev (pre ++ bad :: rest) = .error (.noTimestamp n bad.key) := by
  induction pre with
  | nil =>
    intro prev rest hadj _
    have hdup : ¬(d = false ∧ prev = some bad.key) := by
      rintro ⟨hd, hp⟩
      rcases hadj with hadj | hadj
      · rw [hadj] at hd; exact Bool.noConfusion hd
      · simp only [List.nil_append, adjDistinctB, Bool.and_eq_true, bne_iff_ne] at hadj
        exact hadj.1 hp
    simp [readLoop, hdup, hbad]
  | cons item pre2 ih =>
    intro prev rest hadj hpre
    have hdup : ¬(d = false ∧ prev = some item.key) := by
      rintro ⟨hd, hp⟩
      rcases hadj with hadj | hadj
      · rw [hadj] at hd; exact Bool.noConfusion hd
      · simp only [List.cons_append, adjDistinctB, Bool.and_eq_true, bne_iff_ne] at hadj
        exact hadj.1 hp
    have hts : ¬((false : Bool) = false ∧ item.val.length < HeaderSize) := by
      rintro ⟨_, hlen⟩
      exact absurd (hpre item (List.mem_cons_self item pre2)) (by omega)
    have hadj2 : d = true ∨ adjDistinctB (some item.key) (pre2 ++ [bad]) = true := by
      rcases hadj with hadj | hadj
      · exact Or.inl hadj
      · simp only [List.cons_append, adjDistinctB, Bool.and_eq_true] at hadj
        exact Or.inr hadj.2
    have hrec := ih (some item.key) rest hadj2
      (fun it hit => hpre it (List.mem_cons_of_mem item hit))
    have hts2 : ¬ item.val.length < HeaderSize := fun hl => hts ⟨rfl, hl⟩
    simp [readLoop, hdup, hts2, hrec, Except.map]

theorem readDBI_ok_entries (n : String) (items : List Item) (flags : Nat)
    (hack r : Bool) (dbi : DBI)
    (hok : readDBI n items flags hack r = .ok dbi) :
    dbi = ⟨n, flags % 2 ^ 64, items.map (extractKV r)⟩
      ∧ (r = false → ∀ it ∈ items, HeaderSize ≤ it.val.length) := by
  rw [readDBI] at hok
  split at hok
  · exact absurd hok (by simp)
  · cases hloop : readLoop n (flags &&& lmdbDupSort != 0) r none items with
    | error e => rw [hloop] at hok; exact absurd hok (by simp [Except.map])
    | ok es =>
      rw [hloop] at hok
      simp only [Except.map, Except.ok.injEq] at hok
      obtain ⟨hes, hlen⟩ := readLoop_ok_shape n _ r items none es hloop
      subst hes
      exact ⟨hok.symm, hlen⟩

theorem isSafeChar_sanitized (c : Char) :
    isSafeChar (if isSafeChar c then c else '-') = true := by
  by_cases h : isSafeChar c = true
  · simp [h]
  · simp only [h, Bool.false_eq_true, if_false]
    decide

theorem sanitizeName_chars_safe (s : String) :
    ∀ c ∈ (sanitizeName s).data, isSafeChar c = true := by
  intro c hc
  rcases List.mem_map.mp hc with ⟨c0, _, rfl⟩
  exact isSafeChar_sanitized c0

theorem map_sanitize_fixed (l : List Char) (h : ∀ c ∈ l, isSafeChar c = true) :
    l.map (fun c => if isSafeChar c then c else '-') = l := by
  induction l with
  | nil => rfl
  | cons c cs ih =>
    rw [List.map_cons, if_pos (h c (List.mem_cons_self c cs)),
      ih fun c2 hc2 => h c2 (List.mem_cons_of_mem c hc2)]

theorem sanitizeName_fixed (s : String) (h : ∀ c ∈ s.data, isSafeChar c = true) :
    sanitizeName s = s := by
  rw [sanitizeName, map_sanitize_fixed s.data h]

/-!  Claim theorems.  -/

/-- C2: for every table entry whose stored value is the concatenation
bigEndian64(T) ++ payload, extraction with rawValues=false yields an entry
with TimestampNano equal to T and Value equal to payload exactly; with
payload = [] this covers the 8-byte-exact case (empty payload, decoded
timestamp). -/
theorem readDBI_roundtrip (n : String) (items : List Item) (flags : Nat)
    (hack : Bool) (dbi : DBI) (i t : Nat) (payload : List Nat)
    (ht : t < 2 ^ 64) (hi : i < items.length)
    (hval : (items.get ⟨i, hi⟩).val = encodeBE64 t ++ payload)
    (hok : readDBI n items flags hack false = .ok dbi) :
    ∃ hj : i < dbi.entries.length,
      (dbi.entries.get ⟨i, hj⟩).timestampNano = t
        ∧ (dbi.entries.get ⟨i, hj⟩).value = payload := by
  obtain ⟨hdbi, -⟩ := readDBI_ok_entries n items flags hack false dbi hok
  subst hdbi
  have hj : i < (items.map (extractKV false)).length := by simpa using hi
  refine ⟨hj, ?_⟩
  have hget : (items.map (extractKV false)).get ⟨i, hj⟩
      = extractKV false (items.get ⟨i, hi⟩) := by
    simp
  rw [hget]
  have h8 : (encodeBE64 t).length = HeaderSize := encodeBE64_length t
  constructor
  · show beUint64 ((items.get ⟨i, hi⟩).val.take HeaderSize) = t
    rw [hval, ← h8, List.take_left, beUint64_encodeBE64 t ht]
  · show (items.get ⟨i, hi⟩).val.drop HeaderSize = payload
    rw [hval, ← h8, List.drop_left]

/-- C6: for every table without multi-value mode whose entries have
pairwise-distinct adjacent keys and values of at least 8 bytes, non-raw
ReadTable succeeds with exactly one snapshot entry per item, keys in the
engine iteration order. -/
theorem readDBI_preserves_order (n : String) (items : List Item) (flags : Nat)
    (hack : Bool) (hflags : flags &&& lmdbDupSort = 0)
    (hadj : adjDistinctB none items = true)
    (hwf : ∀ it ∈ items, HeaderSize ≤ it.val.length) :
    ∃ dbi, readDBI n items flags hack false = .ok dbi
      ∧ dbi.entries.length = items.length
      ∧ dbi.entries.map KV.key = items.map Item.key := by
  refine ⟨⟨n, flags % 2 ^ 64, items.map (extractKV false)⟩, ?_, by simp, ?_⟩
  · rw [readDBI]
    have hd : (flags &&& lmdbDupSort != 0) = false := by simp [hflags]
    rw [if_neg (by simp [hd]), readLoop_clean_ok n _ false items none
      (by rw [hd]; exact Or.inr hadj) (Or.inr hwf)]
    rfl
  · show (items.map (extractKV false)).map KV.key = items.map Item.key
    rw [List.map_map]
    exact List.map_congr_left fun it _ => extractKV_key false it

/-- C3: for a table entry whose value is shorter than 8 bytes, non-raw
ReadTable fails with the no-timestamp error carrying the table name and the
offending key, returning no snapshot (the clean prefix before the bad entry
does not survive); an 8-byte-exactly value succeeds with an empty payload
and the decoded timestamp. -/
theorem readDBI_short_value_errors (n : String) (pre rest : List Item)
    (bad : Item) (flags : Nat) (hack : Bool) (k v : List Nat)
    (hflags : flags &&& lmdbDupSort = 0)
    (hadj : adjDistinctB none (pre ++ [bad]) = true)
    (hpre : ∀ it ∈ pre, HeaderSize ≤ it.val.length)
    (hbad : bad.val.length < HeaderSize)
    (hv : v.length = HeaderSize) :
    readDBI n (pre ++ bad :: rest) flags hack false
        = .error (.noTimestamp n bad.key)
    ∧ readDBI n [⟨k, v⟩] flags hack false
        = .ok ⟨n, flags % 2 ^ 64, [⟨k, [], beUint64 v⟩]⟩ := by
  have hd : (flags &&& lmdbDupSort != 0) = false := by simp [hflags]
  constructor
  · rw [readDBI, if_neg (by simp [hd]), hd,
      readLoop_short_error n false bad hbad pre none rest (Or.inr hadj) hpre]
    rfl
  · rw [readDBI, if_neg (by simp [hd]), hd,
      readLoop_clean_ok n false false [⟨k, v⟩] none (by simp [adjDistinctB])
        (Or.inr (by simp [hv]))]
    have hkv : extractKV false ⟨k, v⟩ = ⟨k, [], beUint64 v⟩ := by
      simp only [extractKV, Bool.false_eq_true, if_false, ← hv,
        List.take_length, List.drop_length]
    simp [Except.map, hkv]

/-- C4: a table whose flags declare dupsort with the dupsort hack disabled
makes ReadTable fail with the multi-value-unsupported error naming the
table, with no partial snapshot (the error branch of the Except carries no
DBI value). -/
theorem readDBI_dupsort_refused (n : String) (items : List Item) (flags : Nat)
    (r : Bool) (hflags : flags &&& lmdbDupSort ≠ 0) :
    readDBI n items flags false r = .error (.dupsortDisabled n) := by
  rw [readDBI, if_pos (by simp [hflags])]

/-- C5: with multi-value mode disabled, ReadTable fails with the
duplicate-key error exactly when some key equals the immediately preceding
key (given well-formed values, so that the timestamp check cannot fire
first); with the dupsort flag set and the hack enabled, two adjacent
identical keys produce two entries and no error. -/
theorem readDBI_duplicate_key (n : String) (items : List Item) (flags : Nat)
    (hack r : Bool) (k v1 v2 : List Nat)
    (hflags : flags &&& lmdbDupSort = 0)
    (hwf : r = true ∨ ∀ it ∈ items, HeaderSize ≤ it.val.length)
    (h1 : HeaderSize ≤ v1.length) (h2 : HeaderSize ≤ v2.length) :
    (readDBI n items flags hack r = .error (.duplicateKey n)
      ↔ adjDistinctB none items = false)
    ∧ readDBI n [⟨k, v1⟩, ⟨k, v2⟩] lmdbDupSort true false
        = .ok ⟨n, lmdbDupSort,
            [extractKV false ⟨k, v1⟩, extractKV false ⟨k, v2⟩]⟩ := by
  have hd : (flags &&& lmdbDupSort != 0) = false := by simp [hflags]
  constructor
  · rw [readDBI, if_neg (by simp [hd]), hd]
    rw [← readLoop_duplicate_iff n r items none hwf]
    cases hloop : readLoop n false r none items with
    | error e => simp [Except.map]
    | ok es => simp [Except.map]
  · rw [readDBI, if_neg (by simp [lmdbDupSort]),
      readLoop_clean_ok n _ false [⟨k, v1⟩, ⟨k, v2⟩] none
        (Or.inl (by simp [lmdbDupSort])) (Or.inr (by simp [h1, h2]))]
    rfl

/-- C1 counterexample: a stored value of exactly 8 zero bytes is accepted
by non-raw ReadTable and yields an entry with TimestampNano = 0, so a zero
timestamp IS produced from a stored value in non-raw mode, refuting the
claim at this concrete input. -/
theorem readDBI_zero_timestamp_counterexample :
    readDBI "t" [⟨[97], [0, 0, 0, 0, 0, 0, 0, 0]⟩] 0 false false
        = .ok ⟨"t", 0, [⟨[97], [], 0⟩]⟩
    ∧ ¬ (∀ dbi : DBI,
          readDBI "t" [⟨[97], [0, 0, 0, 0, 0, 0, 0, 0]⟩] 0 false false
              = .ok dbi →
          ∀ kv ∈ dbi.entries, kv.timestampNano ≠ 0) := by
  refine ⟨rfl, fun h => ?_⟩
  exact h ⟨"t", 0, [⟨[97], [], 0⟩]⟩ rfl ⟨[97], [], 0⟩ (by simp) rfl

/-- C1 amended: for every entry of a snapshot successfully returned by
non-raw ReadTable, the stored value was at least 8 bytes (undersized values
are hard errors, never defaulted to zero), TimestampNano is the big-endian
decoding of the first 8 stored bytes, and it is zero exactly when those
8 bytes are all zero. -/
theorem readDBI_timestamp_decodes_header (n : String) (items : List Item)
    (flags : Nat) (hack : Bool) (dbi : DBI) (i : Nat)
    (hok : readDBI n items flags hack false = .ok dbi)
    (hi : i < items.length) :
    ∃ hj : i < dbi.entries.length,
      HeaderSize ≤ (items.get ⟨i, hi⟩).val.length
      ∧ (dbi.entries.get ⟨i, hj⟩).timestampNano
          = beUint64 ((items.get ⟨i, hi⟩).val.take HeaderSize)
      ∧ ((dbi.entries.get ⟨i, hj⟩).timestampNano = 0
          ↔ ∀ b ∈ (items.get ⟨i, hi⟩).val.take HeaderSize, b = 0) := by
  obtain ⟨hdbi, hlen⟩ := readDBI_ok_entries n items flags hack false dbi hok
  subst hdbi
  have hj : i < (items.map (extractKV false)).length := by simpa using hi
  have hget : (items.map (extractKV false)).get ⟨i, hj⟩
      = extractKV false (items.get ⟨i, hi⟩) := by
    simp
  refine ⟨hj, hlen rfl (items.get ⟨i, hi⟩) (items.get_mem i hi), ?_, ?_⟩
  · rw [hget]; rfl
  · rw [hget]
    show beUint64 ((items.get ⟨i, hi⟩).val.take HeaderSize) = 0 ↔ _
    exact beUint64_eq_zero _

/-- C7: InstanceID chooses the configured name when non-empty and the host
fallback otherwise, then replaces every character outside [a-zA-Z0-9-] by a
dash; in particular InstanceID("My Host!", h) = "My-Host-" and
InstanceID("", "db01.example.com") = "db01-example-com". -/
theorem instanceID_choice_and_sanitize (cfg host : String) :
    instanceID cfg host
      = String.mk ((if cfg = "" then host else cfg).data.map
          (fun c => if isSafeChar c then c else '-'))
    ∧ instanceID "My Host!" host = "My-Host-"
    ∧ instanceID "" "db01.example.com" = "db01-example-com" := by
  refine ⟨rfl, ?_, by decide⟩
  rw [instanceID, if_neg (by decide)]
  decide

/-- C10: every character of an InstanceID result lies in [a-zA-Z0-9-], and
applying InstanceID to its own non-empty output returns that output
unchanged. -/
theorem instanceID_idempotent (cfg host h2 : String)
    (hne : instanceID cfg host ≠ "") :
    (∀ c ∈ (instanceID cfg host).data, isSafeChar c = true)
    ∧ instanceID (instanceID cfg host) h2 = instanceID cfg host := by
  have hsafe : ∀ c ∈ (instanceID cfg host).data, isSafeChar c = true :=
    sanitizeName_chars_safe (if cfg = "" then host else cfg)
  refine ⟨hsafe, ?_⟩
  rw [instanceID, if_neg hne]
  exact sanitizeName_fixed (instanceID cfg host) hsafe

/-- C8: the claim requires every successfully opened environment handle to
be closed exactly once on every exit path of the opening scope, including
the branch where the baseline-info query fails after a successful open. The
source never closes on that branch: with the engine open succeeding (handle
7) and the info query failing, openEnv returns the info error, the handle
stands opened, and zero close calls were performed — openEnv in fact
performs zero close calls on every path, and since the handle is not
returned either, no caller can ever close it. -/
theorem openEnv_info_error_leaks :
    (openEnv ⟨.ok 7, .error "info failed"⟩).result = .error "info failed"
    ∧ (openEnv ⟨.ok 7, .error "info failed"⟩).opened = some 7
    ∧ (openEnv ⟨.ok 7, .error "info failed"⟩).closeCalls = 0
    ∧ (∀ o : EnvOracle, (openEnv o).closeCalls = 0)
    ∧ closeEnv (.error "close failed") = ["Env close returned error"] := by
  refine ⟨rfl, rfl, rfl, ?_, rfl⟩
  rintro ⟨op, info⟩
  cases op <;> cases info <;> rfl

/-- C9: with a non-positive stats-logging interval, starting the stats
monitor logs that stats logging is disabled, starts no background loop, and
no sampling call ever occurs, however many ticks elapse. -/
theorem startStatsLogger_disabled (interval : Int) (h : interval ≤ 0) :
    startStatsLogger interval = (["LMDB stats logging disabled"], none)
    ∧ ∀ ticks : Nat, statsSampleCalls (startStatsLogger interval).2 ticks = 0 := by
  constructor
  · rw [startStatsLogger, if_pos h]
  · intro ticks
    rw [startStatsLogger, if_pos h]
    rfl

/-!  Witnesses: each instantiates its theorem at one concrete input.  -/

/-- Witness for the C2 round-trip theorem at a one-entry table whose value
is bigEndian64(5) ++ [9]. -/
theorem readDBI_roundtrip_witness :
    (5 : Nat) < 2 ^ 64
    ∧ ∃ hj : 0 < (⟨"t", 0, [⟨[1], [9], 5⟩]⟩ : DBI).entries.length,
        ((⟨"t", 0, [⟨[1], [9], 5⟩]⟩ : DBI).entries.get ⟨0, hj⟩).timestampNano = 5
        ∧ ((⟨"t", 0, [⟨[1], [9], 5⟩]⟩ : DBI).entries.get ⟨0, hj⟩).value = [9] :=
  ⟨by decide,
   readDBI_roundtrip "t" [⟨[1], encodeBE64 5 ++ [9]⟩] 0 false
     ⟨"t", 0, [⟨[1], [9], 5⟩]⟩ 0 5 [9] (by decide) (by decide) (by decide)
     (by rfl)⟩

/-- Witness for the C6 order-preservation theorem at a two-entry table. -/
theorem readDBI_preserves_order_witness :
    adjDistinctB none
        [⟨[1], [1, 1, 1, 1, 1, 1, 1, 1]⟩, ⟨[2], [2, 2, 2, 2, 2, 2, 2, 2]⟩] = true
    ∧ ∃ dbi, readDBI "t"
          [⟨[1], [1, 1, 1, 1, 1, 1, 1, 1]⟩, ⟨[2], [2, 2, 2, 2, 2, 2, 2, 2]⟩]
          0 false false = .ok dbi
        ∧ dbi.entries.length
            = [(⟨[1], [1, 1, 1, 1, 1, 1, 1, 1]⟩ : Item),
               ⟨[2], [2, 2, 2, 2, 2, 2, 2, 2]⟩].length
        ∧ dbi.entries.map KV.key
            = [(⟨[1], [1, 1, 1, 1, 1, 1, 1, 1]⟩ : Item),
               ⟨[2], [2, 2, 2, 2, 2, 2, 2, 2]⟩].map Item.key :=
  ⟨by decide,
   readDBI_preserves_order "t"
     [⟨[1], [1, 1, 1, 1, 1, 1, 1, 1]⟩, ⟨[2], [2, 2, 2, 2, 2, 2, 2, 2]⟩]
     0 false (by decide) (by decide) (by decide)⟩

/-- Witness for the C3 short-value theorem: a clean first entry followed by
a 1-byte value fails with the no-timestamp error for the second key, and a
lone 8-byte value succeeds. -/
theorem readDBI_short_value_errors_witness :
    (⟨[2], [7]⟩ : Item).val.length < HeaderSize
    ∧ readDBI "t" ([⟨[1], [1, 1, 1, 1, 1, 1, 1, 1]⟩] ++ ⟨[2], [7]⟩ :: []) 0
          false false
        = .error (.noTimestamp "t" [2])
    ∧ readDBI "t" [⟨[3], [9, 0, 0, 0, 0, 0, 0, 1]⟩] 0 false false
        = .ok ⟨"t", 0, [⟨[3], [], beUint64 [9, 0, 0, 0, 0, 0, 0, 1]⟩]⟩ :=
  ⟨by decide,
   readDBI_short_value_errors "t" [⟨[1], [1, 1, 1, 1, 1, 1, 1, 1]⟩] []
     ⟨[2], [7]⟩ 0 false [3] [9, 0, 0, 0, 0, 0, 0, 1] (by decide) (by decide)
     (by decide) (by decide) (by decide)⟩

/-- Witness for the C4 dupsort-refusal theorem at flags = 4. -/
theorem readDBI_dupsort_refused_witness :
    4 &&& lmdbDupSort ≠ 0
    ∧ readDBI "t" [] 4 false false = .error (.dupsortDisabled "t") :=
  ⟨by decide, readDBI_dupsort_refused "t" [] 4 false (by decide)⟩

/-- Witness for the C5 duplicate-key theorem at a table whose two entries
share one key. -/
theorem readDBI_duplicate_key_witness :
    adjDistinctB none
        [⟨[1], [1, 1, 1, 1, 1, 1, 1, 1]⟩, ⟨[1], [1, 1, 1, 1, 1, 1, 1, 1]⟩]
        = false
    ∧ (readDBI "t"
          [⟨[1], [1, 1, 1, 1, 1, 1, 1, 1]⟩, ⟨[1], [1, 1, 1, 1, 1, 1, 1, 1]⟩]
          0 false false = .error (.duplicateKey "t")
        ↔ adjDistinctB none
            [⟨[1], [1, 1, 1, 1, 1, 1, 1, 1]⟩, ⟨[1], [1, 1, 1, 1, 1, 1, 1, 1]⟩]
            = false)
    ∧ readDBI "t" [⟨[5], [1, 1, 1, 1, 1, 1, 1, 1]⟩, ⟨[5], [2, 2, 2, 2, 2, 2, 2, 2]⟩]
          lmdbDupSort true false
        = .ok ⟨"t", lmdbDupSort,
            [extractKV false ⟨[5], [1, 1, 1, 1, 1, 1, 1, 1]⟩,
             extractKV false ⟨[5], [2, 2, 2, 2, 2, 2, 2, 2]⟩]⟩ :=
  ⟨by decide,
   readDBI_duplicate_key "t"
     [⟨[1], [1, 1, 1, 1, 1, 1, 1, 1]⟩, ⟨[1], [1, 1, 1, 1, 1, 1, 1, 1]⟩]
     0 false false [5] [1, 1, 1, 1, 1, 1, 1, 1] [2, 2, 2, 2, 2, 2, 2, 2]
     (by decide) (Or.inr (by decide)) (by decide) (by decide)⟩

/-- Witness for the C1 amended theorem at a one-entry table whose value
decodes to timestamp 3 with payload [7]. -/
theorem readDBI_timestamp_decodes_header_witness :
    0 < [(⟨[1], [0, 0, 0, 0, 0, 0, 0, 3, 7]⟩ : Item)].length
    ∧ ∃ hj : 0 < (⟨"t", 0, [⟨[1], [7], 3⟩]⟩ : DBI).entries.length,
        HeaderSize ≤ ([(⟨[1], [0, 0, 0, 0, 0, 0, 0, 3, 7]⟩ : Item)].get
            ⟨0, by decide⟩).val.length
        ∧ ((⟨"t", 0, [⟨[1], [7], 3⟩]⟩ : DBI).entries.get ⟨0, hj⟩).timestampNano
            = beUint64 (([(⟨[1], [0, 0, 0, 0, 0, 0, 0, 3, 7]⟩ : Item)].get
                ⟨0, by decide⟩).val.take HeaderSize)
        ∧ (((⟨"t", 0, [⟨[1], [7], 3⟩]⟩ : DBI).entries.get ⟨0, hj⟩).timestampNano = 0
            ↔ ∀ b ∈ ([(⟨[1], [0, 0, 0, 0, 0, 0, 0, 3, 7]⟩ : Item)].get
                ⟨0, by decide⟩).val.take HeaderSize, b = 0) :=
  ⟨by decide,
   readDBI_timestamp_decodes_header "t" [⟨[1], [0, 0, 0, 0, 0, 0, 0, 3, 7]⟩]
     0 false ⟨"t", 0, [⟨[1], [7], 3⟩]⟩ 0 (by rfl) (by decide)⟩

/-- Witness for the C10 idempotence theorem at configured name "a". -/
theorem instanceID_idempotent_witness :
    instanceID "a" "b" ≠ ""
    ∧ ((∀ c ∈ (instanceID "a" "b").data, isSafeChar c = true)
        ∧ instanceID (instanceID "a" "b") "x" = instanceID "a" "b") :=
  ⟨by decide, instanceID_idempotent "a" "b" "x" (by decide)⟩

/-- Witness for the C9 disabled stats monitor theorem at interval 0 and
5 elapsed ticks. -/
theorem startStatsLogger_disabled_witness :
    (0 : Int) ≤ 0
    ∧ startStatsLogger 0 = (["LMDB stats logging disabled"], none)
    ∧ statsSampleCalls (startStatsLogger 0).2 5 = 0 :=
  ⟨by decide, (startStatsLogger_disabled 0 (by decide)).1,
   (startStatsLogger_disabled 0 (by decide)).2 5⟩
